import Mathlib

/-!
Verification of the PoissonSteve-GBA animation viewer (source/main.c).

The program is a frame sequencer for the GBA's bitmap mode 3: a read-only
frame store (frame pixel buffers plus per-frame tick durations, supplied by
animation.h) is played back by a small state machine driven once per
vertical-blank tick.  We embed the playback state, the two render routines
and the per-tick control flow of `main` as pure Lean functions and prove the
specification's testable properties about them.

Machine integers: `currentFrame`, `frameTimer` and the duration entries are
16-bit unsigned in the C source, so increments are taken modulo 2^16.
Pixel buffers are modelled as total functions from a linear position to a
16-bit packed colour value; a frame buffer write touches exactly the
positions below 240*160.
-/

namespace PoissonSteve

/-- Modulus of the C type u16: currentFrame, frameTimer and the duration
entries are 16-bit unsigned. -/
def U16 : Nat := 65536

/-- RGB16(r,g,b) = (r)+((g)<<5)+((b)<<10) from main.c. -/
def RGB16 (r g b : Nat) : Nat := r + g * 32 + b * 1024

def RED : Nat := RGB16 31 0 0

def GREEN : Nat := RGB16 0 31 0

def BLUE : Nat := RGB16 0 0 31

def BLACK : Nat := RGB16 0 0 0

/-- Screen width in pixels (mode 3). -/
def screenW : Nat := 240

/-- Screen height in pixels (mode 3). -/
def screenH : Nat := 160

/-- Number of pixels written by a full-screen blit: 240 * 160. -/
def screenSize : Nat := screenW * screenH

/-- The read-only frame store supplied by animation.h:
`poisson_frame_count`, `poisson_durations` and `poisson_frames`.
Durations and frame pixels are u16 data in the C source; we model the
arrays as total functions on Nat (the code only reads them at indices
below `frame_count`). -/
structure FrameStore where
  frame_count : Nat
  durations : Nat → Nat
  frames : Nat → Nat → Nat

/-- The mutable program state: the three globals `currentFrame`,
`frameTimer`, `playingAnimation`, together with the mode-3 video buffer
(position below 240*160 to pixel value). -/
structure AnimState where
  currentFrame : Nat
  frameTimer : Nat
  playingAnimation : Bool
  video : Nat → Nat

/-- drawFrame from main.c: if `frameIndex >= poisson_frame_count` return
without writing; otherwise copy frame `frameIndex` onto positions
0..240*160-1 of the video buffer. -/
def drawFrame (fs : FrameStore) (frameIndex : Nat) (video : Nat → Nat) :
    Nat → Nat :=
  if frameIndex ≥ fs.frame_count then video
  else fun pos => if pos < screenSize then fs.frames frameIndex pos else video pos

/-- The colour-bar loop from the KEY_A handler in main: for every y < 160
and x < 240 it writes position y*240+x with RED when x < 80, GREEN when
x < 160 and BLUE otherwise.  Each position p < 240*160 is written exactly
once, with x = p % 240. -/
def drawColorBars (video : Nat → Nat) : Nat → Nat :=
  fun pos =>
    if pos < screenSize then
      if pos % screenW < 80 then RED
      else if pos % screenW < 160 then GREEN
      else BLUE
    else video pos

/-- The wrap-around step inside updateAnimation: after `currentFrame++`,
if `currentFrame >= poisson_frame_count` reset it to 0. -/
def wrapFrame (fs : FrameStore) (c : Nat) : Nat :=
  if c ≥ fs.frame_count then 0 else c

/-- updateAnimation from main.c.  Early return when `frame_count <= 1`;
otherwise increment `frameTimer` (u16), and when it has reached
`poisson_durations[currentFrame]` reset the timer, advance the frame with
wrap-around and draw the new frame. -/
def updateAnimation (fs : FrameStore) (s : AnimState) : AnimState :=
  if fs.frame_count ≤ 1 then s
  else if (s.frameTimer + 1) % U16 ≥ fs.durations s.currentFrame then
    { s with
      frameTimer := 0,
      currentFrame := wrapFrame fs ((s.currentFrame + 1) % U16),
      video := drawFrame fs (wrapFrame fs ((s.currentFrame + 1) % U16)) s.video }
  else
    { s with frameTimer := (s.frameTimer + 1) % U16 }

/-- The buttons reported newly pressed this tick by `keysDown()`:
KEY_A toggles to the colour bars, KEY_B resumes the animation. -/
structure Keys where
  keyA : Bool
  keyB : Bool

/-- The KEY_A block of the main loop: stop the animation and draw the
colour bars. -/
def handleKeyA (keys : Keys) (s : AnimState) : AnimState :=
  if keys.keyA then
    { s with playingAnimation := false, video := drawColorBars s.video }
  else s

/-- The KEY_B block of the main loop: resume the animation, reset
`currentFrame` and `frameTimer` to 0 and draw frame 0. -/
def handleKeyB (fs : FrameStore) (keys : Keys) (s : AnimState) : AnimState :=
  if keys.keyB then
    { s with playingAnimation := true, currentFrame := 0, frameTimer := 0,
             video := drawFrame fs 0 s.video }
  else s

/-- One iteration of the main loop after `VBlankIntrWait`/`scanKeys`:
handle KEY_A, then KEY_B, then call updateAnimation when
`playingAnimation` is set. -/
def tick (fs : FrameStore) (keys : Keys) (s : AnimState) : AnimState :=
  if (handleKeyB fs keys (handleKeyA keys s)).playingAnimation then
    updateAnimation fs (handleKeyB fs keys (handleKeyA keys s))
  else handleKeyB fs keys (handleKeyA keys s)

/-- The state at the top of the main loop: globals start as
currentFrame = 0, frameTimer = 0, playingAnimation = true; main clears the
screen to black and draws frame 0 once before looping. -/
def initState (fs : FrameStore) : AnimState :=
  { currentFrame := 0, frameTimer := 0, playingAnimation := true,
    video := drawFrame fs 0 (fun _ => BLACK) }

/-- A tick on which no button was newly pressed. -/
def noKeys : Keys := ⟨false, false⟩

/-- A tick with only the toggle-bars button (KEY_A) newly pressed. -/
def keysA : Keys := ⟨true, false⟩

/-- A tick with only the resume button (KEY_B) newly pressed. -/
def keysB : Keys := ⟨false, true⟩

/-- A tick with both buttons newly pressed. -/
def keysAB : Keys := ⟨true, true⟩

/-- `n` consecutive main-loop iterations, each with the same key events. -/
def ticks (fs : FrameStore) (keys : Keys) : Nat → AnimState → AnimState
  | 0, s => s
  | n + 1, s => tick fs keys (ticks fs keys n s)

/-- An all-black video buffer, as left by the clear loop in main. -/
def vZero : Nat → Nat := fun _ => BLACK

/-- A concrete playing state at frame 0 with timer 0. -/
def sPlay : AnimState := ⟨0, 0, true, vZero⟩

/-- A concrete two-frame store whose frames each last two ticks. -/
def fsTwo : FrameStore := ⟨2, fun _ => 2, fun _ _ => 0⟩

/-- A concrete single-frame store. -/
def fsOne : FrameStore := ⟨1, fun _ => 2, fun _ _ => 0⟩

/-- The three-frame store of the end-to-end scenario: durations 2, 3, 1. -/
def fsDemo : FrameStore :=
  ⟨3, fun i => if i = 0 then 2 else if i = 1 then 3 else 1, fun _ _ => 0⟩

/-- A concrete two-frame store whose first frame lasts a single tick. -/
def fsFast : FrameStore := ⟨2, fun _ => 1, fun i _ => i⟩

/-- A playing state at frame 0, timer 0, with frame 0 of `fsTwo` on screen. -/
def sStart : AnimState := ⟨0, 0, true, drawFrame fsTwo 0 vZero⟩

/-! ## Helper lemmas -/

theorem updateAnimation_le_one (fs : FrameStore) (s : AnimState)
    (h1 : fs.frame_count ≤ 1) : updateAnimation fs s = s := by
  unfold updateAnimation
  rw [if_pos h1]

theorem updateAnimation_hold (fs : FrameStore) (s : AnimState)
    (h1 : ¬ fs.frame_count ≤ 1)
    (h2 : ¬ (s.frameTimer + 1) % U16 ≥ fs.durations s.currentFrame) :
    updateAnimation fs s = { s with frameTimer := (s.frameTimer + 1) % U16 } := by
  unfold updateAnimation
  rw [if_neg h1, if_neg h2]

theorem updateAnimation_advance (fs : FrameStore) (s : AnimState)
    (h1 : ¬ fs.frame_count ≤ 1)
    (h2 : (s.frameTimer + 1) % U16 ≥ fs.durations s.currentFrame) :
    updateAnimation fs s =
      { s with
        frameTimer := 0,
        currentFrame := wrapFrame fs ((s.currentFrame + 1) % U16),
        video := drawFrame fs (wrapFrame fs ((s.currentFrame + 1) % U16)) s.video } := by
  unfold updateAnimation
  rw [if_neg h1, if_pos h2]

theorem tick_noKeys_of_playing (fs : FrameStore) (s : AnimState)
    (hp : s.playingAnimation = true) :
    tick fs noKeys s = updateAnimation fs s := by
  simp [tick, handleKeyA, handleKeyB, noKeys, hp]

/-- The u16 frame increment with wrap-around check computes addition
modulo `frame_count`, for indices and counts representable in u16. -/
theorem wrap_eq (fs : FrameStore) (i : Nat) (h0 : 0 < fs.frame_count)
    (hi : i < fs.frame_count) (hfc : fs.frame_count ≤ U16) :
    wrapFrame fs ((i + 1) % U16) = (i + 1) % fs.frame_count := by
  have hfc' : fs.frame_count ≤ 65536 := hfc
  rcases Nat.lt_or_ge (i + 1) 65536 with hlt | hge
  · have hm : (i + 1) % U16 = i + 1 := by
      show (i + 1) % 65536 = i + 1
      omega
    rw [hm]
    unfold wrapFrame
    rcases Nat.lt_or_ge (i + 1) fs.frame_count with ha | hb
    · rw [if_neg (by omega), Nat.mod_eq_of_lt ha]
    · have he : i + 1 = fs.frame_count := by omega
      rw [if_pos (by omega), he, Nat.mod_self]
  · have h1 : i + 1 = 65536 := by omega
    have h2 : fs.frame_count = 65536 := by omega
    have hm : (i + 1) % U16 = 0 := by
      show (i + 1) % 65536 = 0
      omega
    rw [hm]
    unfold wrapFrame
    rw [if_neg (by omega), h1, h2, Nat.mod_self]

/-- While the timer has not yet reached the current frame's duration, a
no-button tick only increments the timer. -/
theorem run_holds (fs : FrameStore) (i : Nat) (v : Nat → Nat)
    (h2 : 1 < fs.frame_count) (hd16 : fs.durations i < U16) :
    ∀ k, k < fs.durations i →
      ticks fs noKeys k ⟨i, 0, true, v⟩ = ⟨i, k, true, v⟩ := by
  have hd16' : fs.durations i < 65536 := hd16
  intro k
  induction k with
  | zero => intro _; rfl
  | succ k ih =>
    intro hk
    have hk1 : k < fs.durations i := Nat.lt_of_succ_lt hk
    show tick fs noKeys (ticks fs noKeys k ⟨i, 0, true, v⟩) =
      (⟨i, k + 1, true, v⟩ : AnimState)
    rw [ih hk1, tick_noKeys_of_playing fs _ rfl,
      updateAnimation_hold fs _ (by omega)
        (by show ¬ (k + 1) % 65536 ≥ fs.durations i; omega)]
    show (⟨i, (k + 1) % U16, true, v⟩ : AnimState) = ⟨i, k + 1, true, v⟩
    have hmod : (k + 1) % U16 = k + 1 := by
      show (k + 1) % 65536 = k + 1
      omega
    rw [hmod]

theorem drawFrame_idem (fs : FrameStore) (v : Nat → Nat) :
    drawFrame fs 0 (drawFrame fs 0 v) = drawFrame fs 0 v := by
  by_cases h : (0 : Nat) ≥ fs.frame_count
  · simp [drawFrame, h]
  · funext pos
    by_cases hp : pos < screenSize <;> simp [drawFrame, h, hp]

/-! ## Claim theorems -/

/-- C2: for every out-of-range frame index (in particular every index when
the store is empty), drawFrame writes nothing to the video buffer and
returns it unchanged; being a total function of the buffer alone, it
touches no playback state and raises no fault. -/
theorem drawFrame_out_of_range (fs : FrameStore) (frameIndex : Nat)
    (video : Nat → Nat) (h : fs.frame_count ≤ frameIndex) :
    drawFrame fs frameIndex video = video := by
  unfold drawFrame
  rw [if_pos h]

theorem drawFrame_out_of_range_witness :
    fsTwo.frame_count ≤ 2 ∧ drawFrame fsTwo 2 vZero = vZero :=
  ⟨by decide, drawFrame_out_of_range fsTwo 2 vZero (by decide)⟩

/-- C5: the colour-bar render writes red to every pixel with column below
80, green to columns 80..159 and blue to columns 160..239, on every row;
in particular (0,0) is pure red, (80,0) pure green, (160,0) pure blue and
(239,159) pure blue, where the pure colours are the packed RGB(5:5:5)
values with a single channel at 31. -/
theorem colorBars_pixels (video : Nat → Nat) :
    (∀ x y, x < 240 → y < 160 →
      drawColorBars video (y * 240 + x) =
        (if x < 80 then RED else if x < 160 then GREEN else BLUE)) ∧
    drawColorBars video (0 * 240 + 0) = RED ∧
    drawColorBars video (0 * 240 + 80) = GREEN ∧
    drawColorBars video (0 * 240 + 160) = BLUE ∧
    drawColorBars video (159 * 240 + 239) = BLUE := by
  have key : ∀ x y, x < 240 → y < 160 →
      drawColorBars video (y * 240 + x) =
        (if x < 80 then RED else if x < 160 then GREEN else BLUE) := by
    intro x y hx hy
    have hpos : y * 240 + x < screenSize := by
      show y * 240 + x < 240 * 160
      omega
    have hmod : (y * 240 + x) % screenW = x := by
      show (y * 240 + x) % 240 = x
      omega
    unfold drawColorBars
    rw [if_pos hpos, hmod]
  exact ⟨key, key 0 0 (by omega) (by omega), key 80 0 (by omega) (by omega),
    key 160 0 (by omega) (by omega), key 239 159 (by omega) (by omega)⟩

theorem colorBars_pixels_witness :
    (0 < 240 ∧ 0 < 160) ∧ drawColorBars vZero (0 * 240 + 0) = RED :=
  ⟨⟨by decide, by decide⟩, (colorBars_pixels vZero).1 0 0 (by decide) (by decide)⟩

/-- C6: when the store has at most one frame, any number of no-button
ticks in Playing mode leaves the current frame index at 0 and the
elapsed-tick counter unchanged: updateAnimation returns early. -/
theorem single_frame_never_advances (fs : FrameStore) (s : AnimState)
    (h1 : fs.frame_count ≤ 1) (h0 : s.currentFrame = 0)
    (hp : s.playingAnimation = true) :
    ∀ n, (ticks fs noKeys n s).currentFrame = 0 ∧
      (ticks fs noKeys n s).frameTimer = s.frameTimer := by
  have hfix : ∀ n, ticks fs noKeys n s = s := by
    intro n
    induction n with
    | zero => rfl
    | succ n ih =>
      show tick fs noKeys (ticks fs noKeys n s) = s
      rw [ih, tick_noKeys_of_playing fs s hp, updateAnimation_le_one fs s h1]
  intro n
  rw [hfix n]
  exact ⟨h0, rfl⟩

theorem single_frame_never_advances_witness :
    fsOne.frame_count ≤ 1 ∧ sPlay.currentFrame = 0 ∧
    sPlay.playingAnimation = true ∧
    ((ticks fsOne noKeys 5 sPlay).currentFrame = 0 ∧
     (ticks fsOne noKeys 5 sPlay).frameTimer = sPlay.frameTimer) :=
  ⟨by decide, by decide, by decide,
   single_frame_never_advances fsOne sPlay (by decide) (by decide) (by decide) 5⟩

/-- C9: end-to-end scenario with three frames of durations 2, 3, 1,
starting in Playing mode at frame 0: tick 1 still shows frame 0, tick 2
advances to frame 1 with the timer reset, ticks 3 and 4 hold frame 1,
tick 5 advances to frame 2, and tick 6 wraps back to frame 0. -/
theorem demo_schedule :
    (ticks fsDemo noKeys 1 sPlay).currentFrame = 0 ∧
    (ticks fsDemo noKeys 2 sPlay).currentFrame = 1 ∧
    (ticks fsDemo noKeys 2 sPlay).frameTimer = 0 ∧
    (ticks fsDemo noKeys 3 sPlay).currentFrame = 1 ∧
    (ticks fsDemo noKeys 4 sPlay).currentFrame = 1 ∧
    (ticks fsDemo noKeys 5 sPlay).currentFrame = 2 ∧
    (ticks fsDemo noKeys 6 sPlay).currentFrame = 0 :=
  ⟨rfl, rfl, rfl, rfl, rfl, rfl, rfl⟩

/-- C7: a toggle-bars edge in Playing mode switches to the paused mode and
draws the colour bars, leaving the frame index and timer untouched; and
while paused, any tick without a resume edge leaves the frame index, the
timer and the mode unchanged. -/
theorem toggle_bars_freezes (fs : FrameStore) (keys : Keys) (s : AnimState)
    (hB : keys.keyB = false) :
    (s.playingAnimation = true → keys.keyA = true →
      tick fs keys s =
        ⟨s.currentFrame, s.frameTimer, false, drawColorBars s.video⟩) ∧
    (s.playingAnimation = false →
      (tick fs keys s).currentFrame = s.currentFrame ∧
      (tick fs keys s).frameTimer = s.frameTimer ∧
      (tick fs keys s).playingAnimation = false) := by
  constructor
  · intro hp hA
    simp [tick, handleKeyA, handleKeyB, hA, hB]
  · intro hp
    by_cases hA : keys.keyA = true
    · simp [tick, handleKeyA, handleKeyB, hA, hB]
    · simp [tick, handleKeyA, handleKeyB, hA, hB, hp]

theorem toggle_bars_freezes_witness :
    keysA.keyB = false ∧ sPlay.playingAnimation = true ∧ keysA.keyA = true ∧
    tick fsTwo keysA sPlay =
      ⟨sPlay.currentFrame, sPlay.frameTimer, false, drawColorBars sPlay.video⟩ :=
  ⟨by decide, by decide, by decide,
   (toggle_bars_freezes fsTwo keysA sPlay (by decide)).1 (by decide) (by decide)⟩

/-- C8: two consecutive toggle-bars edges with no resume in between change
the mode only on the first: the second tick ends still paused, with the
frame index and timer exactly as after the first. -/
theorem double_toggle_idempotent (fs : FrameStore) (s : AnimState)
    (hp : s.playingAnimation = true) :
    (tick fs keysA s).playingAnimation = false ∧
    (tick fs keysA (tick fs keysA s)).playingAnimation = false ∧
    (tick fs keysA (tick fs keysA s)).currentFrame =
      (tick fs keysA s).currentFrame ∧
    (tick fs keysA (tick fs keysA s)).frameTimer =
      (tick fs keysA s).frameTimer := by
  have h1 : tick fs keysA s =
      ⟨s.currentFrame, s.frameTimer, false, drawColorBars s.video⟩ := by
    simp [tick, handleKeyA, handleKeyB, keysA]
  rw [h1]
  simp [tick, handleKeyA, handleKeyB, keysA]

theorem double_toggle_idempotent_witness :
    sPlay.playingAnimation = true ∧
    ((tick fsTwo keysA sPlay).playingAnimation = false ∧
     (tick fsTwo keysA (tick fsTwo keysA sPlay)).playingAnimation = false ∧
     (tick fsTwo keysA (tick fsTwo keysA sPlay)).currentFrame =
       (tick fsTwo keysA sPlay).currentFrame ∧
     (tick fsTwo keysA (tick fsTwo keysA sPlay)).frameTimer =
       (tick fsTwo keysA sPlay).frameTimer) :=
  ⟨by decide, double_toggle_idempotent fsTwo sPlay (by decide)⟩

/-- C3, counterexample to the claim as stated: with a two-frame store of
duration 2 and frame 0 on screen, a tick carrying only the resume edge
does not leave the playback state unchanged at the end of the tick — the
same tick's animation update increments the elapsed-tick counter. -/
theorem resume_tick_changes_timer :
    (tick fsTwo keysB sStart).frameTimer ≠ sStart.frameTimer := by decide

/-- C3, amended: the resume handling itself (the button-processing part of
the tick) leaves a Playing state at frame 0 with timer 0 unchanged and
re-renders frame 0 pixel-identically; the tick as a whole then ends in
exactly the state a tick with no buttons pressed would produce. -/
theorem resume_restart_idempotent (fs : FrameStore) (v : Nat → Nat) :
    handleKeyB fs keysB (handleKeyA keysB ⟨0, 0, true, drawFrame fs 0 v⟩) =
      ⟨0, 0, true, drawFrame fs 0 v⟩ ∧
    tick fs keysB ⟨0, 0, true, drawFrame fs 0 v⟩ =
      tick fs noKeys ⟨0, 0, true, drawFrame fs 0 v⟩ := by
  have hstep : handleKeyB fs keysB (handleKeyA keysB ⟨0, 0, true, drawFrame fs 0 v⟩) =
      ⟨0, 0, true, drawFrame fs 0 v⟩ := by
    simp [handleKeyA, handleKeyB, keysB, drawFrame_idem]
  refine ⟨hstep, ?_⟩
  unfold tick
  rw [hstep]
  simp [handleKeyA, handleKeyB, noKeys]

/-- C4: with a nonempty store, the invariant currentFrame < frame_count
holds initially and is preserved by every tick, whatever the key events
and the mode. -/
theorem frame_index_invariant (fs : FrameStore) (h1 : 1 ≤ fs.frame_count) :
    (initState fs).currentFrame < fs.frame_count ∧
    ∀ keys s, s.currentFrame < fs.frame_count →
      (tick fs keys s).currentFrame < fs.frame_count := by
  have hupd : ∀ t : AnimState, t.currentFrame < fs.frame_count →
      (updateAnimation fs t).currentFrame < fs.frame_count := by
    intro t ht
    unfold updateAnimation
    split
    · exact ht
    · split
      · show wrapFrame fs ((t.currentFrame + 1) % U16) < fs.frame_count
        unfold wrapFrame
        split
        · omega
        · omega
      · exact ht
  constructor
  · exact h1
  · intro keys s hs
    have hA : (handleKeyA keys s).currentFrame = s.currentFrame := by
      by_cases h : keys.keyA = true <;> simp [handleKeyA, h]
    have hmid : (handleKeyB fs keys (handleKeyA keys s)).currentFrame <
        fs.frame_count := by
      by_cases h : keys.keyB = true <;> simp [handleKeyB, h, hA] <;> omega
    unfold tick
    split
    · exact hupd _ hmid
    · exact hmid

theorem frame_index_invariant_witness :
    1 ≤ fsTwo.frame_count ∧ sPlay.currentFrame < fsTwo.frame_count ∧
    (tick fsTwo keysB sPlay).currentFrame < fsTwo.frame_count :=
  ⟨by decide, by decide,
   (frame_index_invariant fsTwo (by decide)).2 keysB sPlay (by decide)⟩

/-- C1: in a store with at least two frames (u16-representable count,
u16 durations, as in the C data), starting Playing at frame i with the
timer at 0, the frame index stays i on every tick before the duration of
frame i elapses, and the tick on which it elapses advances to
(i+1) mod frame_count, resets the timer to 0 and draws the new frame. -/
theorem advance_after_duration (fs : FrameStore) (i : Nat) (v : Nat → Nat)
    (h2 : 2 ≤ fs.frame_count) (hfc : fs.frame_count ≤ U16)
    (hi : i < fs.frame_count)
    (hd1 : 1 ≤ fs.durations i) (hd16 : fs.durations i < U16) :
    (∀ k, k < fs.durations i →
      (ticks fs noKeys k ⟨i, 0, true, v⟩).currentFrame = i) ∧
    ticks fs noKeys (fs.durations i) ⟨i, 0, true, v⟩ =
      ⟨(i + 1) % fs.frame_count, 0, true,
       drawFrame fs ((i + 1) % fs.frame_count) v⟩ := by
  have h2' : 1 < fs.frame_count := h2
  have hU : fs.durations i < 65536 := hd16
  constructor
  · intro k hk
    rw [run_holds fs i v h2' hd16 k hk]
  · obtain ⟨e, he⟩ : ∃ e, fs.durations i = e + 1 :=
      ⟨fs.durations i - 1, by omega⟩
    have hrun : ticks fs noKeys e ⟨i, 0, true, v⟩ = ⟨i, e, true, v⟩ :=
      run_holds fs i v h2' hd16 e (by omega)
    have hcond : ((⟨i, e, true, v⟩ : AnimState).frameTimer + 1) % U16 ≥
        fs.durations (⟨i, e, true, v⟩ : AnimState).currentFrame := by
      show (e + 1) % 65536 ≥ fs.durations i
      omega
    rw [he]
    show tick fs noKeys (ticks fs noKeys e ⟨i, 0, true, v⟩) = _
    rw [hrun, tick_noKeys_of_playing fs _ rfl,
      updateAnimation_advance fs _ (by omega) hcond]
    show (⟨wrapFrame fs ((i + 1) % U16), 0, true,
      drawFrame fs (wrapFrame fs ((i + 1) % U16)) v⟩ : AnimState) = _
    rw [wrap_eq fs i (by omega) hi hfc]

theorem advance_after_duration_witness :
    2 ≤ fsTwo.frame_count ∧ fsTwo.frame_count ≤ U16 ∧
    0 < fsTwo.frame_count ∧ 1 ≤ fsTwo.durations 0 ∧ fsTwo.durations 0 < U16 ∧
    ((∀ k, k < fsTwo.durations 0 →
       (ticks fsTwo noKeys k ⟨0, 0, true, vZero⟩).currentFrame = 0) ∧
     ticks fsTwo noKeys (fsTwo.durations 0) ⟨0, 0, true, vZero⟩ =
       ⟨(0 + 1) % fsTwo.frame_count, 0, true,
        drawFrame fsTwo ((0 + 1) % fsTwo.frame_count) vZero⟩) :=
  ⟨by decide, by decide, by decide, by decide, by decide,
   advance_after_duration fsTwo 0 vZero (by decide) (by decide) (by decide)
     (by decide) (by decide)⟩

/-- C10, counterexample to the claim as stated: with a two-frame store
whose first frame lasts one tick, a tick carrying both button edges does
not end at frame 0 — the same tick's animation update advances past it. -/
theorem both_buttons_advances :
    (tick fsFast keysAB sPlay).currentFrame ≠ 0 := by decide

/-- C10, amended: when both button edges occur in the same tick, resume
wins — the bars are drawn first and then overwritten by frame 0, and the
tick ends Playing at frame 0 — provided the store is nonempty and, when it
has at least two frames, frame 0 lasts at least two ticks (otherwise the
same tick's animation update advances past frame 0). -/
theorem resume_wins (fs : FrameStore) (s : AnimState)
    (h1 : 1 ≤ fs.frame_count)
    (h2 : 2 ≤ fs.frame_count → 2 ≤ fs.durations 0) :
    (tick fs keysAB s).playingAnimation = true ∧
    (tick fs keysAB s).currentFrame = 0 ∧
    (tick fs keysAB s).video = drawFrame fs 0 (drawColorBars s.video) := by
  have hmid : handleKeyB fs keysAB (handleKeyA keysAB s) =
      ⟨0, 0, true, drawFrame fs 0 (drawColorBars s.video)⟩ := by
    simp [handleKeyA, handleKeyB, keysAB]
  have hrun : tick fs keysAB s =
      updateAnimation fs ⟨0, 0, true, drawFrame fs 0 (drawColorBars s.video)⟩ := by
    unfold tick
    rw [hmid]
    rfl
  rcases le_or_lt fs.frame_count 1 with hfc | hfc
  · rw [hrun, updateAnimation_le_one fs _ hfc]
    exact ⟨rfl, rfl, rfl⟩
  · have hd : 2 ≤ fs.durations 0 := h2 hfc
    have hcond : ¬ ((⟨0, 0, true, drawFrame fs 0 (drawColorBars s.video)⟩ :
        AnimState).frameTimer + 1) % U16 ≥
        fs.durations (⟨0, 0, true, drawFrame fs 0 (drawColorBars s.video)⟩ :
          AnimState).currentFrame := by
      show ¬ (0 + 1) % 65536 ≥ fs.durations 0
      omega
    rw [hrun, updateAnimation_hold fs _ (by omega) hcond]
    exact ⟨rfl, rfl, rfl⟩

theorem resume_wins_witness :
    1 ≤ fsTwo.frame_count ∧
    ((tick fsTwo keysAB sPlay).playingAnimation = true ∧
     (tick fsTwo keysAB sPlay).currentFrame = 0 ∧
     (tick fsTwo keysAB sPlay).video =
       drawFrame fsTwo 0 (drawColorBars sPlay.video)) :=
  ⟨by decide, resume_wins fsTwo sPlay (by decide) (by decide)⟩

end PoissonSteve
